import Mathlib

/-!
# Verification of the MCP Adapter pipeline against its specification

Shallow embedding of the MCP Adapter repository: the CLI pipeline
(`src/mcp_adapter/cli.py`) and the two generated adapters
(`src/output/math-api-mcp/server.py`, `src/output/petstore-mcp/server.py`).
The pipeline stages implemented in modules that are only imported by the
CLI (`mine.py`, `safety.py`, `models.py`) are modelled from the
specification, and each such definition says so in its doc comment.
-/

namespace MCPAdapter

/-- HTTP methods, as used by `Endpoint.method` in the data model. -/
inductive Method where
  | GET
  | POST
  | PUT
  | PATCH
  | DELETE
  | HEAD
  | OPTIONS
deriving DecidableEq, Repr

/-- Safety classification of a tool: read / write / destructive. -/
inductive SafetyLevel where
  | read
  | write
  | destructive
deriving DecidableEq, Repr

/-- Numeric rank of a safety level, used to state that classification
never downgrades (read < write < destructive). -/
def safetyRank : SafetyLevel → Nat
  | .read => 0
  | .write => 1
  | .destructive => 2

/-- Python-style `s.lower()`: lower-case every character. -/
def lc (s : String) : String := ⟨s.data.map Char.toLower⟩

/-- `sub in s` on strings: `sub.data` is a prefix of some tail of `s.data`. -/
def occursIn (sub s : String) : Bool :=
  (List.range (s.data.length + 1)).any (fun i => List.isPrefixOf sub.data (s.data.drop i))

/-- Python-style `s.endswith(suffix)`, via the underlying character lists. -/
def endsWithStr (s suffix : String) : Bool := List.isSuffixOf suffix.data s.data

/-- Modelled from the spec: the destructive verb list of ToolMiner
(`mine.py` is not under `src/`); §4.2 names "delete", "remove", "purge". -/
def destructiveVerbs : List String := ["delete", "remove", "purge"]

/-- Modelled from the spec: does the lower-cased text mention a destructive verb. -/
def mentionsDestructiveVerb (text : String) : Bool :=
  destructiveVerbs.any (fun v => occursIn v (lc text))

/-- Modelled from the spec: ToolMiner safety classification (`mine.py` is not
under `src/`). Precedence per §4.2: DELETE ⇒ destructive; POST/PUT/PATCH ⇒
write, upgraded to destructive when the path/summary text mentions a
destructive verb; otherwise read. -/
def classify (m : Method) (text : String) : SafetyLevel :=
  match m with
  | .DELETE => .destructive
  | .POST | .PUT | .PATCH =>
      if mentionsDestructiveVerb text then .destructive else .write
  | _ => .read

/-- A tool stub of a generated adapter: declared name, the HTTP method its
body passes to `_request`, and the description declared in its `@tool`
decorator. Transcribed from the adapter sources. -/
structure Stub where
  name : String
  method : Method
  description : String
deriving DecidableEq, Repr

/-- The write-safety marker appended to tool descriptions
(from the generated sources: " [WRITES DATA]" suffixes). -/
def writeMarker : String := "[WRITES DATA]"

/-- The destructive-safety marker appended to tool descriptions
(from `src/output/petstore-mcp/server.py`). -/
def destructiveMarker : String := "[DESTRUCTIVE — may permanently delete data]"

/-- The five stubs of `src/output/math-api-mcp/server.py`, in source order
(name, method passed to `_request`, `@tool` description). -/
def mathStubs : List Stub :=
  [ ⟨"add_numbers", .POST, "Calculates the sum of two numbers. [WRITES DATA]"⟩
  , ⟨"divide_numbers", .POST, "Calculates the quotient of two numbers."⟩
  , ⟨"health_check", .GET, "Checks the health status of the API."⟩
  , ⟨"multiply_numbers", .POST, "Calculates the product of two numbers."⟩
  , ⟨"subtract_numbers", .POST, "Calculates the difference between two numbers."⟩ ]

/-- The eight stubs of `src/output/petstore-mcp/server.py`, in source order. -/
def petstoreStubs : List Stub :=
  [ ⟨"adoptpet", .POST, "Mark a pet as adopted [WRITES DATA]"⟩
  , ⟨"createowner", .POST, "Register a new owner [WRITES DATA]"⟩
  , ⟨"createpet", .POST, "Add a new pet [WRITES DATA]"⟩
  , ⟨"deleteowner", .DELETE, "Delete an owner record [DESTRUCTIVE — may permanently delete data]"⟩
  , ⟨"deletepet", .DELETE, "Delete a pet [DESTRUCTIVE — may permanently delete data]"⟩
  , ⟨"search_owners", .GET, "Search or list owners with flexible filtering."⟩
  , ⟨"search_pets", .GET, "Search or list pets with flexible filtering."⟩
  , ⟨"updatepet", .PUT, "Update a pet [WRITES DATA]"⟩ ]

/-- All stubs of both generated adapters. -/
def allStubs : List Stub := mathStubs ++ petstoreStubs

/-- Classification of a stub by the (spec-modelled) ToolMiner rule, applied
to the stub's method and description text. -/
def classifyStub (s : Stub) : SafetyLevel := classify s.method s.description

/-- Is the method one of POST/PUT/PATCH. -/
def isWriteMethod (m : Method) : Bool :=
  match m with
  | .POST | .PUT | .PATCH => true
  | _ => false

/-- The classification a stub must have, looking only at its method:
DELETE stubs destructive, POST/PUT/PATCH stubs at least write, others read. -/
def stubClassOk (s : Stub) : Bool :=
  match s.method with
  | .DELETE => classifyStub s = .destructive
  | .POST | .PUT | .PATCH => 1 ≤ safetyRank (classifyStub s)
  | _ => classifyStub s = .read

/-- Modelled from the spec: ToolMiner description synthesis (`mine.py` is not
under `src/`) appends a bracketed safety marker when safety is write or
destructive (§4.2), with the marker strings observed in the generated
adapters. -/
def appendSafetyMarker (desc : String) : SafetyLevel → String
  | .read => desc
  | .write => (desc ++ " ") ++ writeMarker
  | .destructive => (desc ++ " ") ++ destructiveMarker

/-- The marker discipline of a generated stub: DELETE stubs end with the
destructive marker, POST/PUT/PATCH stubs end with the write marker, and
other (read) stubs carry neither marker. -/
def stubMarkerOk (s : Stub) : Bool :=
  match s.method with
  | .DELETE => endsWithStr s.description destructiveMarker
  | .POST | .PUT | .PATCH => endsWithStr s.description writeMarker
  | _ => !endsWithStr s.description writeMarker && !endsWithStr s.description destructiveMarker

mutual
/-- JSON values, as handled by the adapters through `resp.json()` and
`json.dumps`. Numbers are modelled as integers: no claim depends on float
semantics, and values are opaque payloads to the request plumbing. -/
inductive Json where
  | null : Json
  | bool : Bool → Json
  | num : Int → Json
  | str : String → Json
  | arr : JsonA → Json
  | obj : JsonO → Json
/-- Spine of a JSON array. -/
inductive JsonA where
  | nil : JsonA
  | cons : Json → JsonA → JsonA
/-- Spine of a JSON object: ordered key/value fields. -/
inductive JsonO where
  | nil : JsonO
  | cons : String → Json → JsonO → JsonO
end

/-- A JSON string literal. String escaping is elided: no value handled in
this development contains a character the json module would escape. -/
def jstr (s : String) : String := "\"" ++ s ++ "\""

mutual
/-- `json.dumps(v)` with default separators (item ", ", key ": "). -/
def dumpsC : Json → String
  | .null => "null"
  | .bool true => "true"
  | .bool false => "false"
  | .num n => toString n
  | .str s => jstr s
  | .arr .nil => "[]"
  | .arr (.cons h t) => "[" ++ dumpsC h ++ dumpsCA t ++ "]"
  | .obj .nil => "\x7b\x7d"
  | .obj (.cons k v t) => "\x7b" ++ jstr k ++ ": " ++ dumpsC v ++ dumpsCO t ++ "\x7d"
/-- Remaining array items of `dumpsC`, each prefixed by the item separator. -/
def dumpsCA : JsonA → String
  | .nil => ""
  | .cons h t => ", " ++ dumpsC h ++ dumpsCA t
/-- Remaining object fields of `dumpsC`, each prefixed by the item separator. -/
def dumpsCO : JsonO → String
  | .nil => ""
  | .cons k v t => ", " ++ jstr k ++ ": " ++ dumpsC v ++ dumpsCO t
end

/-- The indentation in front of an item at nesting depth `d` under
`json.dumps(v, indent=2)`: `2*d` spaces. -/
def ind (d : Nat) : String := ⟨List.replicate (2 * d) ' '⟩

mutual
/-- `json.dumps(v, indent=2)` rendered at nesting depth `d`: scalars inline,
non-empty containers spread one item per line, items indented one level
deeper, the closing bracket back at depth `d`. -/
def dumpsI (d : Nat) : Json → String
  | .null => "null"
  | .bool true => "true"
  | .bool false => "false"
  | .num n => toString n
  | .str s => jstr s
  | .arr .nil => "[]"
  | .arr (.cons h t) =>
      "[\n" ++ ind (d + 1) ++ dumpsI (d + 1) h ++ dumpsIA (d + 1) t ++ "\n" ++ ind d ++ "]"
  | .obj .nil => "\x7b\x7d"
  | .obj (.cons k v t) =>
      "\x7b\n" ++ ind (d + 1) ++ jstr k ++ ": " ++ dumpsI (d + 1) v ++ dumpsIO (d + 1) t ++
        "\n" ++ ind d ++ "\x7d"
/-- Remaining array items of `dumpsI` at depth `d`. -/
def dumpsIA (d : Nat) : JsonA → String
  | .nil => ""
  | .cons h t => ",\n" ++ ind d ++ dumpsI d h ++ dumpsIA d t
/-- Remaining object fields of `dumpsI` at depth `d`. -/
def dumpsIO (d : Nat) : JsonO → String
  | .nil => ""
  | .cons k v t => ",\n" ++ ind d ++ jstr k ++ ": " ++ dumpsI d v ++ dumpsIO d t
end

/-- `json.dumps(v, indent=2)`, as called by both adapters on a parsed body. -/
def dumps2 (v : Json) : String := dumpsI 0 v

/-- One upstream HTTP response as the adapters see it: the status code, the
raw body text, and the outcome of `resp.json()` — `some v` when the body
parses as JSON (the json module is external, so the parse outcome is part of
the response model). -/
structure UpstreamResponse where
  status : Nat
  text : String
  jsonOf : Option Json

/-- The outcome of one attempted HTTP exchange: a response from upstream, or
a transport-level exception (connection failure, timeout) with its message. -/
inductive Outcome where
  | response : UpstreamResponse → Outcome
  | failure : String → Outcome

/-- Success statuses: `httpx`'s `raise_for_status` raises unless 2xx. -/
def is2xx (status : Nat) : Bool := decide (200 ≤ status) && decide (status < 300)

/-- The response formatting shared by both `_request` helpers: the
pretty-printed JSON rendering when the body parses, the raw text otherwise. -/
def formatBody (r : UpstreamResponse) : String :=
  match r.jsonOf with
  | some v => dumps2 v
  | none => r.text

/-- The message of an `httpx.HTTPStatusError`, modelling `str(e)` of the
external library: some text naming the failing status. -/
def statusErrorMsg (status : Nat) : String :=
  "HTTP status error " ++ toString status

/-- `os.getenv(name, default)` against an environment `env`. -/
def getenv (env : String → Option String) (name dflt : String) : String :=
  (env name).getD dflt

/-- An outgoing HTTP request as handed to `httpx.AsyncClient.request`:
method, full URL, headers, query-string parameters, JSON body fields. -/
structure HttpRequest where
  method : Method
  url : String
  headers : List (String × String)
  query : List (String × Json)
  body : List (String × Json)

/-- What a tool stub hands to `_request`: the method, the concrete path, and
the query/body parameter dictionaries it assembled. -/
structure PendingCall where
  method : Method
  path : String
  query : List (String × Json)
  body : List (String × Json)

namespace MathApi

/-- `BASE_URL` of `src/output/math-api-mcp/server.py`, read from the
environment at the adapter's own runtime. -/
def BASE_URL (env : String → Option String) : String :=
  getenv env "BASIC_MATH_API_BASE_URL" "http://127.0.0.1:8001"

/-- `API_KEY` of `src/output/math-api-mcp/server.py`. -/
def API_KEY (env : String → Option String) : String :=
  getenv env "BASIC_MATH_API_API_KEY" ""

/-- The base URL recorded in the spec for the math API (the generated
module's header docstring: `Base URL: http://127.0.0.1:8001`). -/
def specBaseUrl : String := "http://127.0.0.1:8001"

/-- The environment-variable prefix of the math adapter. -/
def envPrefix : String := "BASIC_MATH_API"

/-- `_headers()` of the math adapter: JSON content-type and accept headers,
plus a bearer Authorization header when `API_KEY` is a non-empty string. -/
def headersFor (apiKey : String) : List (String × String) :=
  let h := [("Content-Type", "application/json"), ("Accept", "application/json")]
  if apiKey = "" then h else h ++ [("Authorization", "Bearer " ++ apiKey)]

/-- The request `_request` of the math adapter sends for a pending call:
URL is `BASE_URL + path` and headers come from `_headers()`. -/
def sentRequest (base apiKey : String) (c : PendingCall) : HttpRequest :=
  ⟨c.method, base ++ c.path, headersFor apiKey, c.query, c.body⟩

/-- The result of `_request` of the math adapter: `raise_for_status` first —
a non-2xx response raises an `HTTPStatusError` and any transport exception
propagates (nothing is caught) — then the body is formatted. `Except.error`
is a propagated exception with its message. -/
def requestResult (o : Outcome) : Except String String :=
  match o with
  | .failure msg => .error msg
  | .response r =>
      if is2xx r.status then .ok (formatBody r) else .error (statusErrorMsg r.status)

end MathApi

namespace Petstore

/-- `BASE_URL` of `src/output/petstore-mcp/server.py`. -/
def BASE_URL (env : String → Option String) : String :=
  getenv env "PETSTORE_API_BASE_URL" "https://petstore.example.com/api/v1"

/-- `API_KEY` of `src/output/petstore-mcp/server.py`. -/
def API_KEY (env : String → Option String) : String :=
  getenv env "PETSTORE_API_API_KEY" ""

/-- The base URL recorded in the spec for the petstore API (the default of
the `PETSTORE_API_BASE_URL` lookup). -/
def specBaseUrl : String := "https://petstore.example.com/api/v1"

/-- The environment-variable prefix of the petstore adapter. -/
def envPrefix : String := "PETSTORE_API"

/-- `_headers()` of the petstore adapter: JSON content-type and accept
headers, plus an `X-API-Key` header when `API_KEY` is a non-empty string. -/
def headersFor (apiKey : String) : List (String × String) :=
  let h := [("Content-Type", "application/json"), ("Accept", "application/json")]
  if apiKey = "" then h else h ++ [("X-API-Key", apiKey)]

/-- The request `_request` of the petstore adapter sends for a pending call. -/
def sentRequest (base apiKey : String) (c : PendingCall) : HttpRequest :=
  ⟨c.method, base ++ c.path, headersFor apiKey, c.query, c.body⟩

/-- The result of `_request` of the petstore adapter: total over failures.
A 2xx response is formatted like the math adapter's; an `HTTPStatusError`
(non-2xx) is caught and rendered as a JSON object with an `error` field and
a `status` field holding the status code; any other exception is caught and
rendered as a JSON object with an `error` field. -/
def requestResult (o : Outcome) : String :=
  match o with
  | .response r =>
      if is2xx r.status then formatBody r
      else
        dumpsC (.obj (.cons "error" (.str (statusErrorMsg r.status))
          (.cons "status" (.num (Int.ofNat r.status)) .nil)))
  | .failure msg => dumpsC (.obj (.cons "error" (.str msg) .nil))

end Petstore

/-- One segment of a path template: literal text, or a braced placeholder. -/
inductive Seg where
  | lit : String → Seg
  | param : String → Seg
deriving DecidableEq, Repr

/-- Template scanner core: `inParam` says whether the scanner stands inside
a placeholder, `acc` holds the current run of characters in reverse. -/
def parseTemplateCore : Bool → List Char → List Char → List Seg
  | false, acc, [] => if acc.isEmpty then [] else [.lit ⟨acc.reverse⟩]
  | true, acc, [] => [.param ⟨acc.reverse⟩]
  | false, acc, c :: rest =>
      if c = '{' then
        if acc.isEmpty then parseTemplateCore true [] rest
        else .lit ⟨acc.reverse⟩ :: parseTemplateCore true [] rest
      else parseTemplateCore false (c :: acc) rest
  | true, acc, c :: rest =>
      if c = '}' then .param ⟨acc.reverse⟩ :: parseTemplateCore false [] rest
      else parseTemplateCore true (c :: acc) rest

/-- Split an endpoint path template into literal and placeholder segments. -/
def parseTemplate (s : String) : List Seg := parseTemplateCore false [] s.data

/-- Substitute every placeholder of a template by its argument's rendering. -/
def renderPath (segs : List Seg) (args : String → String) : String :=
  match segs with
  | [] => ""
  | .lit l :: rest => l ++ renderPath rest args
  | .param p :: rest => args p ++ renderPath rest args

namespace MathApi

/-- The `add_numbers` stub of the math adapter: POST `/add` with both
(required, body-location) parameters in the JSON body and nothing in the
query string. Python float arguments are modelled as integers: values are
opaque payloads to the request plumbing. -/
def add_numbersCall (a b : Int) : PendingCall :=
  ⟨.POST, "/add", [], [("a", .num a), ("b", .num b)]⟩

/-- The `divide_numbers` stub: POST `/divide`, both parameters in the body. -/
def divide_numbersCall (a b : Int) : PendingCall :=
  ⟨.POST, "/divide", [], [("a", .num a), ("b", .num b)]⟩

/-- The `multiply_numbers` stub: POST `/multiply`, both parameters in the body. -/
def multiply_numbersCall (a b : Int) : PendingCall :=
  ⟨.POST, "/multiply", [], [("a", .num a), ("b", .num b)]⟩

/-- The `subtract_numbers` stub: POST `/subtract`, both parameters in the body. -/
def subtract_numbersCall (a b : Int) : PendingCall :=
  ⟨.POST, "/subtract", [], [("a", .num a), ("b", .num b)]⟩

/-- The `health_check` stub: GET `/health`, no parameters at all. -/
def health_checkCall : PendingCall := ⟨.GET, "/health", [], []⟩

end MathApi

namespace Petstore

/-- The `adoptpet` stub: POST to the path built from `petId`, the required
body field `owner_id` always present, the optional `notes` body field only
when provided. -/
def adoptpetCall (petId owner_id : Int) (notes : Option String) : PendingCall :=
  ⟨.POST, "/pets/" ++ toString petId ++ "/adopt", [],
    [("owner_id", .num owner_id)] ++
      (match notes with
       | some n => [("notes", .str n)]
       | none => [])⟩

/-- The `search_pets` stub: with a `petId` it fetches that pet directly;
otherwise it assembles the provided filters into the query dictionary and
targets `/pets/search` when `q` is provided, `/pets` otherwise. -/
def search_petsCall (petId : Option Int) (species status : Option String)
    (limit offset : Option Int) (q : Option String) : PendingCall :=
  match petId with
  | some pid => ⟨.GET, "/pets/" ++ toString pid, [], []⟩
  | none =>
      let params : List (String × Json) :=
        (match species with
         | some v => [("species", Json.str v)]
         | none => []) ++
        (match status with
         | some v => [("status", Json.str v)]
         | none => []) ++
        (match limit with
         | some v => [("limit", Json.num v)]
         | none => []) ++
        (match offset with
         | some v => [("offset", Json.num v)]
         | none => [])
      match q with
      | some qv => ⟨.GET, "/pets/search", params ++ [("q", Json.str qv)], []⟩
      | none => ⟨.GET, "/pets", params, []⟩

/-- The `createowner` stub: POST `/owners`, required body fields `name` and
`email`, optional body fields `id` and `phone` only when provided. -/
def createownerCall (name email : String) (id : Option Int) (phone : Option String) :
    PendingCall :=
  ⟨.POST, "/owners", [],
    [("name", .str name), ("email", .str email)] ++
      (match id with
       | some v => [("id", Json.num v)]
       | none => []) ++
      (match phone with
       | some v => [("phone", Json.str v)]
       | none => [])⟩

/-- The `createpet` stub: POST `/pets`, required body fields `name` and
`species`, optional body fields `id`, `breed`, `age`, `status`. -/
def createpetCall (name species : String) (id : Option Int) (breed : Option String)
    (age : Option Int) (status : Option String) : PendingCall :=
  ⟨.POST, "/pets", [],
    [("name", .str name), ("species", .str species)] ++
      (match id with
       | some v => [("id", Json.num v)]
       | none => []) ++
      (match breed with
       | some v => [("breed", Json.str v)]
       | none => []) ++
      (match age with
       | some v => [("age", Json.num v)]
       | none => []) ++
      (match status with
       | some v => [("status", Json.str v)]
       | none => [])⟩

/-- The `deleteowner` stub: DELETE to the path built from `ownerId`, no
query and no body. -/
def deleteownerCall (ownerId : Int) : PendingCall :=
  ⟨.DELETE, "/owners/" ++ toString ownerId, [], []⟩

/-- The `deletepet` stub: DELETE to the path built from `petId`, no query
and no body. -/
def deletepetCall (petId : Int) : PendingCall :=
  ⟨.DELETE, "/pets/" ++ toString petId, [], []⟩

/-- The `search_owners` stub: with an `ownerId` it fetches that owner
directly; otherwise the provided `limit`/`offset` filters go into the query
dictionary against `/owners`. -/
def search_ownersCall (ownerId : Option Int) (limit offset : Option Int) : PendingCall :=
  match ownerId with
  | some oid => ⟨.GET, "/owners/" ++ toString oid, [], []⟩
  | none =>
      let params : List (String × Json) :=
        (match limit with
         | some v => [("limit", Json.num v)]
         | none => []) ++
        (match offset with
         | some v => [("offset", Json.num v)]
         | none => [])
      ⟨.GET, "/owners", params, []⟩

/-- The `updatepet` stub: PUT to the path built from `petId`, required body
fields `name` and `species`, optional body fields `id`, `breed`, `age`,
`status`. -/
def updatepetCall (petId : Int) (name species : String) (id : Option Int)
    (breed : Option String) (age : Option Int) (status : Option String) : PendingCall :=
  ⟨.PUT, "/pets/" ++ toString petId, [],
    [("name", .str name), ("species", .str species)] ++
      (match id with
       | some v => [("id", Json.num v)]
       | none => []) ++
      (match breed with
       | some v => [("breed", Json.str v)]
       | none => []) ++
      (match age with
       | some v => [("age", Json.num v)]
       | none => []) ++
      (match status with
       | some v => [("status", Json.str v)]
       | none => [])⟩

end Petstore

/-- A tool parameter of the catalog: name, JSON type, required flag. -/
structure ToolParam where
  name : String
  json_type : String
  required : Bool
deriving DecidableEq, Repr

/-- A `ToolDefinition` of the catalog (the fields the claims mention). -/
structure ToolDefinition where
  name : String
  description : String
  safety : SafetyLevel
  params : List ToolParam
deriving DecidableEq, Repr

/-- `SafetyPolicy` configuration, the four fields of §3. -/
structure SafetyPolicy where
  block_destructive : Bool
  max_tools : Nat
  allowlist : List String
  denylist : List String
deriving DecidableEq, Repr

/-- Modelled from the spec: the default `SafetyPolicy` applied by the inspect
command (`safety.py` is not under `src/`): nothing blocked, no limit, empty
allow and deny lists — the same defaults `cli.py`'s generate command passes
when no policy flag is given. -/
def defaultPolicy : SafetyPolicy := ⟨false, 0, [], []⟩

/-- Case-insensitive membership of a tool name in a policy name list. -/
def lcMem (name : String) (names : List String) : Bool :=
  (names.map lc).contains (lc name)

/-- Modelled from the spec: `apply_safety` of SafetyPolicyEngine (`safety.py`
is not under `src/`), §4.3 evaluation order — drop destructive when blocked,
keep the allowlist when non-empty, drop the denylist, truncate to
`max_tools` when positive. -/
def apply_safety (tools : List ToolDefinition) (policy : SafetyPolicy) :
    List ToolDefinition :=
  let t1 :=
    if policy.block_destructive then
      tools.filter (fun t => !(t.safety = SafetyLevel.destructive : Bool))
    else tools
  let t2 :=
    if policy.allowlist.isEmpty then t1
    else t1.filter (fun t => lcMem t.name policy.allowlist)
  let t3 := t2.filter (fun t => !lcMem t.name policy.denylist)
  if policy.max_tools = 0 then t3 else t3.take policy.max_tools

/-- The pipeline stages a CLI command invokes, in call order. -/
inductive Stage where
  | ingest
  | mine
  | enhance
  | safety
  | codegen
deriving DecidableEq, Repr

/-- The stage sequence of `inspect_cmd` in `src/mcp_adapter/cli.py`:
`ingest(source)`, then `mine_tools(api_spec)`, then `apply_safety(tools)` —
and nothing else; `generate` is never called on this path. -/
def inspectStages : List Stage := [.ingest, .mine, .safety]

/-- The stage sequence of `generate_cmd` in `src/mcp_adapter/cli.py`:
ingest, mine, the optional K2 enhancement, safety filtering, generation. -/
def generateStages (use_k2 : Bool) : List Stage :=
  [.ingest, .mine] ++ (if use_k2 then [.enhance] else []) ++ [.safety, .codegen]

/-- One reported parameter of the inspect output: name, type, required. -/
structure ParamReport where
  name : String
  type : String
  required : Bool
deriving DecidableEq, Repr

/-- One reported tool of the inspect output: name, description, safety
value, parameter list. -/
structure ToolReport where
  name : String
  description : String
  safety : String
  params : List ParamReport
deriving DecidableEq, Repr

/-- `safety.value` of the SafetyLevel enum (the strings the report prints). -/
def safetyValue : SafetyLevel → String
  | .read => "read"
  | .write => "write"
  | .destructive => "destructive"

/-- One tool's entry of `inspect_cmd`'s report: its name, description,
safety value, and per-parameter name/type/required (`cli.py`). -/
def reportTool (t : ToolDefinition) : ToolReport :=
  ⟨t.name, t.description, safetyValue t.safety,
    t.params.map (fun p => ⟨p.name, p.json_type, p.required⟩)⟩

/-- The inspect pipeline after ingestion (`inspect_cmd` of `cli.py`): filter
the mined catalog with the default policy, then report each surviving tool. -/
def inspectReport (mined : List ToolDefinition) : List ToolReport :=
  (apply_safety mined defaultPolicy).map reportTool

/-- A decimal digit character. -/
def digitChar : Nat → Char
  | 0 => '0'
  | 1 => '1'
  | 2 => '2'
  | 3 => '3'
  | 4 => '4'
  | 5 => '5'
  | 6 => '6'
  | 7 => '7'
  | 8 => '8'
  | _ => '9'

/-- The numeric value of a decimal digit character. -/
def charToDigit (c : Char) : Nat := c.toNat - 48

/-- The decimal digits of `n`, most significant first, with fuel driving the
division recursion. -/
def natToStrCore : Nat → Nat → List Char
  | _, 0 => []
  | n, fuel + 1 =>
      if n < 10 then [digitChar n]
      else natToStrCore (n / 10) fuel ++ [digitChar (n % 10)]

/-- `str(n)` for a natural number. -/
def natToStr (n : Nat) : String := ⟨natToStrCore n (n + 1)⟩

/-- The value of a digit string, for the round-trip argument. -/
def digitsVal (cs : List Char) : Nat :=
  cs.foldl (fun a c => 10 * a + charToDigit c) 0

/-- The `i`-th numeric-suffix candidate for a colliding tool name. -/
def candidate (base : String) (i : Nat) : String := base ++ "_" ++ natToStr i

/-- Modelled from the spec: collision resolution of ToolMiner naming
(`mine.py` is not under `src/`): when the lower-cased base name is already
taken, append the first numeric suffix (`_2`, `_3`, …) whose lower-cased
result is not taken (§4.2 "appending a numeric suffix in first-seen order").
Searching `used.length + 1` candidates always finds a free one. -/
def freshName (used : List String) (base : String) : String :=
  if lc base ∈ used then
    match (List.range (used.length + 1)).find?
        (fun i => !(used.contains (lc (candidate base (i + 2))))) with
    | some i => candidate base (i + 2)
    | none => candidate base (used.length + 3)
  else base

/-- An `Endpoint` of the IR (the fields the claims about mining need). -/
structure Endpoint where
  method : Method
  path : String
  operation_id : Option String
  summary : String
deriving DecidableEq, Repr

/-- The verb naming an HTTP method, for synthesized names/descriptions. -/
def methodName : Method → String
  | .GET => "get"
  | .POST => "post"
  | .PUT => "put"
  | .PATCH => "patch"
  | .DELETE => "delete"
  | .HEAD => "head"
  | .OPTIONS => "options"

/-- Modelled from the spec: operation-id normalization to a flat identifier
token (§4.2): keep alphanumerics lower-cased, replace the rest by
underscores. -/
def normalizeName (s : String) : String :=
  ⟨s.data.map (fun c => if c.isAlphanum then c.toLower else '_')⟩

/-- Modelled from the spec: the base tool name for an endpoint (§4.2) —
from `operation_id` when present, else synthesized from method and path. -/
def baseName (e : Endpoint) : String :=
  match e.operation_id with
  | some oid => normalizeName oid
  | none => normalizeName (methodName e.method ++ "_" ++ e.path)

/-- Modelled from the spec: description synthesis (§4.2) — the endpoint's
summary verbatim when present, else synthesized from method and path. -/
def describeEndpoint (e : Endpoint) : String :=
  if e.summary = "" then methodName e.method ++ " " ++ e.path else e.summary

/-- Modelled from the spec: mine one endpoint into a tool — classify by
method and path/summary text, pick a fresh name against the taken set, and
append the safety marker to the description. Parameter extraction is not
modelled: no claim concerns the mined parameter shapes. -/
def mineOne (used : List String) (e : Endpoint) : ToolDefinition :=
  let safety := classify e.method (e.path ++ " " ++ e.summary)
  ⟨freshName used (baseName e), appendSafetyMarker (describeEndpoint e) safety, safety, []⟩

/-- The mining fold: each mined tool's lower-cased name joins the taken set
before the rest of the endpoints are processed. -/
def mineToolsGo (used : List String) : List Endpoint → List ToolDefinition
  | [] => []
  | e :: rest =>
      let t := mineOne used e
      t :: mineToolsGo (lc t.name :: used) rest

/-- Modelled from the spec: `mine_tools` of ToolMiner (`mine.py` is not
under `src/`): the ordered tool catalog of an endpoint sequence. -/
def mine_tools (es : List Endpoint) : List ToolDefinition := mineToolsGo [] es

/-- Modelled from the spec: the five-operation math OpenAPI document of the
§8 end-to-end scenario (the document itself is not under `src/`); the
operation ids match the generated adapter's function names. -/
def mathEndpoints : List Endpoint :=
  [ ⟨.POST, "/add", some "add_numbers", "Add two numbers"⟩
  , ⟨.POST, "/subtract", some "subtract_numbers", "Subtract two numbers"⟩
  , ⟨.POST, "/multiply", some "multiply_numbers", "Multiply two numbers"⟩
  , ⟨.POST, "/divide", some "divide_numbers", "Divide two numbers"⟩
  , ⟨.GET, "/health", some "health_check", "Health check"⟩ ]

/-- The callables registered by `server.collect` in the math adapter, in
source order. -/
def mathRegistered : List String :=
  ["add_numbers", "divide_numbers", "health_check", "multiply_numbers", "subtract_numbers"]

/-- The callables registered by `server.collect` in the petstore adapter. -/
def petstoreRegistered : List String :=
  ["adoptpet", "createowner", "createpet", "deleteowner", "deletepet",
   "search_owners", "search_pets", "updatepet"]

end MCPAdapter

namespace MCPAdapter

/-- Helper: a string always ends with the suffix just appended to it. -/
theorem endsWithStr_append (a b : String) : endsWithStr (a ++ b) b = true := by
  simp only [endsWithStr, String.data_append]
  exact List.isSuffixOf_iff_suffix.2 (List.suffix_append a.data b.data)

/-- C1: safety classification is determined by HTTP method with the stated
precedence — DELETE ⇒ destructive; POST/PUT/PATCH ⇒ write, upgraded to
destructive on a destructive verb in the text; other methods ⇒ read; the
classification never downgrades (DELETE is never read, and POST with a
destructive verb in its text is never below write); and every stub of the
two generated adapters is classified accordingly (DELETE stubs destructive,
POST/PUT/PATCH stubs at least write, GET stubs read). -/
theorem C1_safety_classification (m : Method) (text : String) :
    (m = .DELETE → classify m text = .destructive) ∧
    ((m = .POST ∨ m = .PUT ∨ m = .PATCH) →
      (classify m text = .write ∨ classify m text = .destructive) ∧
      (mentionsDestructiveVerb text = true → classify m text = .destructive)) ∧
    ((m = .GET ∨ m = .HEAD ∨ m = .OPTIONS) → classify m text = .read) ∧
    (m = .DELETE → classify m text ≠ .read) ∧
    ((m = .POST ∨ m = .PUT ∨ m = .PATCH) → 1 ≤ safetyRank (classify m text)) ∧
    allStubs.all stubClassOk = true := by
  refine ⟨?_, ?_, ?_, ?_, ?_, by decide⟩
  · rintro rfl; rfl
  · rintro (rfl | rfl | rfl) <;>
      cases h : mentionsDestructiveVerb text <;> simp [classify, h]
  · rintro (rfl | rfl | rfl) <;> rfl
  · rintro rfl; simp [classify]
  · rintro (rfl | rfl | rfl) <;>
      cases h : mentionsDestructiveVerb text <;> simp [classify, h, safetyRank]

/-- Witness for C1: instantiated at DELETE (destructive, never read), at a
POST whose summary contains "delete" (destructive, hence at least write),
and at GET (read). -/
theorem C1_safety_classification_witness :
    classify .DELETE "list pets" = .destructive ∧
    classify .POST "delete a pet" = .destructive ∧
    classify .GET "list pets" = .read := by
  refine ⟨(C1_safety_classification .DELETE "list pets").1 rfl, ?_, ?_⟩
  · exact ((C1_safety_classification .POST "delete a pet").2.1 (Or.inl rfl)).2 (by decide)
  · exact (C1_safety_classification .GET "list pets").2.2.1 (Or.inl rfl)

/-- C2 counterexample: the math adapter's `divide_numbers` stub issues a POST
request but its declared tool description, "Calculates the quotient of two
numbers.", does not end with the write marker — so it is false that in every
generated adapter each POST/PUT/PATCH stub carries a write marker at the end
of its declared description. -/
theorem C2_counterexample :
    (⟨"divide_numbers", .POST, "Calculates the quotient of two numbers."⟩ : Stub) ∈ mathStubs ∧
    isWriteMethod .POST = true ∧
    endsWithStr "Calculates the quotient of two numbers." writeMarker = false := by
  decide

/-- C2 amended: the miner-level marker rule holds — a description is suffixed
with the write marker when safety is write, with the destructive marker when
safety is destructive, and is left unchanged (no marker) when safety is read;
in the petstore adapter every POST/PUT/PATCH stub ends with the write marker,
every DELETE stub ends with the destructive marker, and every GET stub carries
neither; in the math adapter the POST stub `add_numbers` ends with the write
marker and the GET stub `health_check` carries neither — but the math
adapter's other three POST stubs (`divide_numbers`, `multiply_numbers`,
`subtract_numbers`), whose descriptions were rewritten by the optional
enhancement step, carry no marker. -/
theorem C2_safety_markers (desc : String) :
    endsWithStr (appendSafetyMarker desc .write) writeMarker = true ∧
    endsWithStr (appendSafetyMarker desc .destructive) destructiveMarker = true ∧
    appendSafetyMarker desc .read = desc ∧
    petstoreStubs.all stubMarkerOk = true ∧
    stubMarkerOk ⟨"add_numbers", .POST, "Calculates the sum of two numbers. [WRITES DATA]"⟩ = true ∧
    stubMarkerOk ⟨"health_check", .GET, "Checks the health status of the API."⟩ = true ∧
    (mathStubs.filter (fun s => !stubMarkerOk s)).map Stub.name =
      ["divide_numbers", "multiply_numbers", "subtract_numbers"] := by
  refine ⟨endsWithStr_append (desc ++ " ") writeMarker,
          endsWithStr_append (desc ++ " ") destructiveMarker, rfl,
          by decide, by decide, by decide, by decide⟩

/-- C6: for every successful (2xx) upstream response, both adapters' request
helpers return the response body as formatted text — the indented JSON
rendering when the body parses as structured data, the raw response text
otherwise. -/
theorem C6_success_formatting (r : UpstreamResponse) (h : is2xx r.status = true) :
    MathApi.requestResult (.response r) = .ok (formatBody r) ∧
    Petstore.requestResult (.response r) = formatBody r ∧
    (∀ v, r.jsonOf = some v → formatBody r = dumps2 v) ∧
    (r.jsonOf = none → formatBody r = r.text) := by
  refine ⟨by simp [MathApi.requestResult, h], by simp [Petstore.requestResult, h], ?_, ?_⟩
  · intro v hv; simp [formatBody, hv]
  · intro hn; simp [formatBody, hn]

/-- Witness for C6 at a concrete 200 response whose body parses as an object
with two fields: the returned text is the indented rendering. -/
theorem C6_success_formatting_witness :
    is2xx 200 = true ∧
    MathApi.requestResult
        (.response ⟨200, "raw", some (.obj (.cons "a" (.num 1)
          (.cons "b" (.arr (.cons (.num 1) (.cons (.num 2) .nil))) .nil)))⟩) =
      .ok "\x7b\n  \"a\": 1,\n  \"b\": [\n    1,\n    2\n  ]\n\x7d" ∧
    MathApi.requestResult (.response ⟨200, "plain text", none⟩) = .ok "plain text" := by
  refine ⟨by decide, ?_, ?_⟩
  · rw [(C6_success_formatting _ (by decide)).1]; rfl
  · rw [(C6_success_formatting _ (by decide)).1]; rfl

/-- C8: each adapter reads its configuration from environment variables named
by joining its prefix with `_BASE_URL` and `_API_KEY`; the lookup is a
function of the environment passed at the adapter's own runtime; when the
variable is unset the base URL defaults to the spec's recorded base URL and
the API key defaults to the empty string, and when it is set the set value
is used. -/
theorem C8_env_config (env : String → Option String) :
    MathApi.envPrefix ++ "_BASE_URL" = "BASIC_MATH_API_BASE_URL" ∧
    MathApi.envPrefix ++ "_API_KEY" = "BASIC_MATH_API_API_KEY" ∧
    Petstore.envPrefix ++ "_BASE_URL" = "PETSTORE_API_BASE_URL" ∧
    Petstore.envPrefix ++ "_API_KEY" = "PETSTORE_API_API_KEY" ∧
    (env "BASIC_MATH_API_BASE_URL" = none → MathApi.BASE_URL env = MathApi.specBaseUrl) ∧
    (env "BASIC_MATH_API_API_KEY" = none → MathApi.API_KEY env = "") ∧
    (∀ v, env "BASIC_MATH_API_BASE_URL" = some v → MathApi.BASE_URL env = v) ∧
    (∀ v, env "BASIC_MATH_API_API_KEY" = some v → MathApi.API_KEY env = v) ∧
    (env "PETSTORE_API_BASE_URL" = none → Petstore.BASE_URL env = Petstore.specBaseUrl) ∧
    (env "PETSTORE_API_API_KEY" = none → Petstore.API_KEY env = "") ∧
    (∀ v, env "PETSTORE_API_BASE_URL" = some v → Petstore.BASE_URL env = v) ∧
    (∀ v, env "PETSTORE_API_API_KEY" = some v → Petstore.API_KEY env = v) := by
  refine ⟨rfl, rfl, rfl, rfl, ?_, ?_, ?_, ?_, ?_, ?_, ?_, ?_⟩ <;>
    first
      | (intro h
         simp [MathApi.BASE_URL, MathApi.API_KEY, Petstore.BASE_URL, Petstore.API_KEY,
           getenv, h, MathApi.specBaseUrl, Petstore.specBaseUrl])
      | (intro v h
         simp [MathApi.BASE_URL, MathApi.API_KEY, Petstore.BASE_URL, Petstore.API_KEY,
           getenv, h])

/-- Witness for C8: in an empty environment the math base URL is the recorded
spec base URL and the petstore API key is empty; in an environment that sets
the math base URL, the set value wins. -/
theorem C8_env_config_witness :
    MathApi.BASE_URL (fun _ => none) = MathApi.specBaseUrl ∧
    Petstore.API_KEY (fun _ => none) = "" ∧
    MathApi.BASE_URL (fun n => if n = "BASIC_MATH_API_BASE_URL" then some "http://other" else none) =
      "http://other" := by
  refine ⟨(C8_env_config (fun _ => none)).2.2.2.2.1 rfl,
          (C8_env_config (fun _ => none)).2.2.2.2.2.2.2.2.2.1 rfl,
          (C8_env_config _).2.2.2.2.2.2.1 "http://other" (by simp)⟩

/-- C9: every request either adapter sends carries the JSON content-type and
accept headers; the math adapter carries a bearer `Authorization` header and
the petstore adapter an `X-API-Key` header exactly when the API key from the
environment is a non-empty string, and when the key is empty the header list
is exactly the two JSON headers (no credential header at all); `_request`
attaches `_headers()` to the outgoing request. -/
theorem C9_request_headers (apiKey : String) :
    ("Content-Type", "application/json") ∈ MathApi.headersFor apiKey ∧
    ("Accept", "application/json") ∈ MathApi.headersFor apiKey ∧
    ("Content-Type", "application/json") ∈ Petstore.headersFor apiKey ∧
    ("Accept", "application/json") ∈ Petstore.headersFor apiKey ∧
    ((∃ v, ("Authorization", v) ∈ MathApi.headersFor apiKey) ↔ apiKey ≠ "") ∧
    (apiKey ≠ "" → ("Authorization", "Bearer " ++ apiKey) ∈ MathApi.headersFor apiKey) ∧
    ((∃ v, ("X-API-Key", v) ∈ Petstore.headersFor apiKey) ↔ apiKey ≠ "") ∧
    (apiKey ≠ "" → ("X-API-Key", apiKey) ∈ Petstore.headersFor apiKey) ∧
    (apiKey = "" →
      MathApi.headersFor apiKey =
        [("Content-Type", "application/json"), ("Accept", "application/json")] ∧
      Petstore.headersFor apiKey =
        [("Content-Type", "application/json"), ("Accept", "application/json")]) ∧
    (∀ base c, (MathApi.sentRequest base apiKey c).headers = MathApi.headersFor apiKey) ∧
    (∀ base c, (Petstore.sentRequest base apiKey c).headers = Petstore.headersFor apiKey) := by
  by_cases h : apiKey = "" <;>
    simp [MathApi.headersFor, Petstore.headersFor, MathApi.sentRequest, Petstore.sentRequest, h]

/-- Witness for C9: with key "k" the math adapter sends `Bearer k` and the
petstore adapter sends `X-API-Key: k`; with an empty key the petstore header
list is exactly the two JSON headers. -/
theorem C9_request_headers_witness :
    ("Authorization", "Bearer " ++ "k") ∈ MathApi.headersFor "k" ∧
    ("X-API-Key", "k") ∈ Petstore.headersFor "k" ∧
    Petstore.headersFor "" =
      [("Content-Type", "application/json"), ("Accept", "application/json")] := by
  refine ⟨(C9_request_headers "k").2.2.2.2.2.1 (by decide),
          (C9_request_headers "k").2.2.2.2.2.2.2.1 (by decide),
          ((C9_request_headers "").2.2.2.2.2.2.2.2.1 rfl).2⟩

/-- C10: the petstore `_request` is total over failures — on a non-2xx
response it returns the JSON object with an `error` field and a `status`
field holding the response status code, and on any other exception it
returns the JSON object with an `error` field — while the math `_request`
lets a non-2xx response raise (and propagates transport failures). -/
theorem C10_petstore_error_handling (r : UpstreamResponse) (msg : String)
    (h : is2xx r.status = false) :
    Petstore.requestResult (.response r) =
      dumpsC (.obj (.cons "error" (.str (statusErrorMsg r.status))
        (.cons "status" (.num (Int.ofNat r.status)) .nil))) ∧
    Petstore.requestResult (.failure msg) =
      dumpsC (.obj (.cons "error" (.str msg) .nil)) ∧
    MathApi.requestResult (.response r) = .error (statusErrorMsg r.status) ∧
    MathApi.requestResult (.failure msg) = .error msg := by
  refine ⟨?_, rfl, ?_, rfl⟩ <;> simp [Petstore.requestResult, MathApi.requestResult, h]

/-- Witness for C10 at a concrete 404 response and a concrete transport
failure: the petstore helper returns the two JSON error shapes as strings
and the math helper raises. -/
theorem C10_petstore_error_handling_witness :
    is2xx 404 = false ∧
    Petstore.requestResult (.response ⟨404, "not found", none⟩) =
      "\x7b\"error\": \"HTTP status error 404\", \"status\": 404\x7d" ∧
    Petstore.requestResult (.failure "connection refused") =
      "\x7b\"error\": \"connection refused\"\x7d" ∧
    MathApi.requestResult (.response ⟨404, "not found", none⟩) =
      .error (statusErrorMsg 404) := by
  refine ⟨by decide, ?_, ?_, ?_⟩
  · rw [(C10_petstore_error_handling ⟨404, "not found", none⟩ "x" (by decide)).1]; rfl
  · rw [(C10_petstore_error_handling ⟨404, "not found", none⟩ "connection refused"
      (by decide)).2.1]; rfl
  · exact (C10_petstore_error_handling ⟨404, "not found", none⟩ "x" (by decide)).2.2.1

/-- C7: the inspection command runs ingestion, then mining, then the safety
engine with the default policy, in that order and nothing else — in
particular the code generator never runs on the inspect path (while the
generate path does run it) — the default policy passes every mined tool
through unchanged, and the report lists, for each surviving tool, its name,
description, safety value, and its parameters' name/type/required triples. -/
theorem C7_inspect_pipeline (mined : List ToolDefinition) :
    inspectStages = [.ingest, .mine, .safety] ∧
    Stage.codegen ∉ inspectStages ∧
    Stage.codegen ∈ generateStages false ∧
    apply_safety mined defaultPolicy = mined ∧
    inspectReport mined = mined.map reportTool ∧
    (inspectReport mined).map ToolReport.name = mined.map ToolDefinition.name ∧
    (inspectReport mined).map ToolReport.safety =
      mined.map (fun t => safetyValue t.safety) := by
  have hid : apply_safety mined defaultPolicy = mined := by
    simp [apply_safety, defaultPolicy, lcMem]
  refine ⟨rfl, by decide, by decide, hid, ?_, ?_, ?_⟩ <;>
    simp [inspectReport, hid, reportTool]

/-- Helper: rendering a one-placeholder template is the literal prefix
followed by the placeholder's argument. -/
theorem renderPath_lit_param (a p : String) (f : String → String) :
    renderPath [.lit a, .param p] f = a ++ f p := by
  apply String.ext
  simp [renderPath, String.data_append]

/-- C5: every generated stub of both adapters builds the concrete request
path by substituting each path-location argument into its placeholder
(`adoptpet`, `search_pets`/`search_owners` by id, `deletepet`, `deleteowner`,
`updatepet` paths are exactly their templates rendered with the path
argument), places the remaining provided parameters by their recorded
location — body fields into the JSON body (`adoptpet`, `createowner`,
`createpet`, `updatepet`, the four math operation stubs), filters into the
query string (`search_pets`, `search_owners`), and nothing for the
parameterless `health_check` — and `_request` issues the call against the
URL formed by concatenating the adapter's base URL with the path. -/
theorem C5_request_building (base apiKey : String)
    (petId owner_id pid li off a b oid idv ag : Int) (liO offO : Option Int)
    (n sv st qv nm em sp br stt ph : String) :
    parseTemplate "/pets/{petId}/adopt" = [.lit "/pets/", .param "petId", .lit "/adopt"] ∧
    (∀ notes, (Petstore.adoptpetCall petId owner_id notes).path =
        renderPath (parseTemplate "/pets/{petId}/adopt") (fun _ => toString petId) ∧
      (Petstore.adoptpetCall petId owner_id notes).query = []) ∧
    (Petstore.adoptpetCall petId owner_id none).body = [("owner_id", Json.num owner_id)] ∧
    (Petstore.adoptpetCall petId owner_id (some n)).body =
      [("owner_id", Json.num owner_id), ("notes", Json.str n)] ∧
    (Petstore.search_petsCall (some pid) (some sv) (some st) (some li) (some off)
        (some qv)).path =
      renderPath (parseTemplate "/pets/{petId}") (fun _ => toString pid) ∧
    Petstore.search_petsCall none (some sv) (some st) (some li) (some off) none =
      ⟨.GET, "/pets",
        [("species", .str sv), ("status", .str st), ("limit", .num li), ("offset", .num off)],
        []⟩ ∧
    Petstore.search_petsCall none (some sv) (some st) (some li) (some off) (some qv) =
      ⟨.GET, "/pets/search",
        [("species", .str sv), ("status", .str st), ("limit", .num li), ("offset", .num off),
         ("q", .str qv)],
        []⟩ ∧
    MathApi.add_numbersCall a b = ⟨.POST, "/add", [], [("a", .num a), ("b", .num b)]⟩ ∧
    (∀ c, (Petstore.sentRequest base apiKey c).url = base ++ c.path ∧
      (MathApi.sentRequest base apiKey c).url = base ++ c.path ∧
      (Petstore.sentRequest base apiKey c).method = c.method ∧
      (Petstore.sentRequest base apiKey c).query = c.query ∧
      (Petstore.sentRequest base apiKey c).body = c.body) ∧
    (Petstore.sentRequest base apiKey (Petstore.adoptpetCall petId owner_id none)).url =
      base ++ ("/pets/" ++ toString petId ++ "/adopt") ∧
    parseTemplate "/owners/{ownerId}" = [.lit "/owners/", .param "ownerId"] ∧
    Petstore.deletepetCall pid =
      ⟨.DELETE, renderPath (parseTemplate "/pets/{petId}") (fun _ => toString pid), [], []⟩ ∧
    Petstore.deleteownerCall oid =
      ⟨.DELETE, renderPath (parseTemplate "/owners/{ownerId}") (fun _ => toString oid),
        [], []⟩ ∧
    Petstore.search_ownersCall (some oid) liO offO =
      ⟨.GET, renderPath (parseTemplate "/owners/{ownerId}") (fun _ => toString oid),
        [], []⟩ ∧
    Petstore.search_ownersCall none (some li) (some off) =
      ⟨.GET, "/owners", [("limit", .num li), ("offset", .num off)], []⟩ ∧
    Petstore.search_ownersCall none none none = ⟨.GET, "/owners", [], []⟩ ∧
    Petstore.createownerCall nm em none none =
      ⟨.POST, "/owners", [], [("name", .str nm), ("email", .str em)]⟩ ∧
    Petstore.createownerCall nm em (some idv) (some ph) =
      ⟨.POST, "/owners", [],
        [("name", .str nm), ("email", .str em), ("id", .num idv), ("phone", .str ph)]⟩ ∧
    Petstore.createpetCall nm sp none none none none =
      ⟨.POST, "/pets", [], [("name", .str nm), ("species", .str sp)]⟩ ∧
    Petstore.createpetCall nm sp (some idv) (some br) (some ag) (some stt) =
      ⟨.POST, "/pets", [],
        [("name", .str nm), ("species", .str sp), ("id", .num idv), ("breed", .str br),
         ("age", .num ag), ("status", .str stt)]⟩ ∧
    Petstore.updatepetCall pid nm sp none none none none =
      ⟨.PUT, renderPath (parseTemplate "/pets/{petId}") (fun _ => toString pid), [],
        [("name", .str nm), ("species", .str sp)]⟩ ∧
    Petstore.updatepetCall pid nm sp (some idv) (some br) (some ag) (some stt) =
      ⟨.PUT, renderPath (parseTemplate "/pets/{petId}") (fun _ => toString pid), [],
        [("name", .str nm), ("species", .str sp), ("id", .num idv), ("breed", .str br),
         ("age", .num ag), ("status", .str stt)]⟩ ∧
    MathApi.divide_numbersCall a b = ⟨.POST, "/divide", [], [("a", .num a), ("b", .num b)]⟩ ∧
    MathApi.multiply_numbersCall a b =
      ⟨.POST, "/multiply", [], [("a", .num a), ("b", .num b)]⟩ ∧
    MathApi.subtract_numbersCall a b =
      ⟨.POST, "/subtract", [], [("a", .num a), ("b", .num b)]⟩ ∧
    MathApi.health_checkCall = ⟨.GET, "/health", [], []⟩ := by
  have hp1 : parseTemplate "/pets/{petId}" = [.lit "/pets/", .param "petId"] := rfl
  have hp2 : parseTemplate "/owners/{ownerId}" = [.lit "/owners/", .param "ownerId"] := rfl
  have hr1 : ∀ x : Int,
      renderPath (parseTemplate "/pets/{petId}") (fun _ => toString x) =
        "/pets/" ++ toString x := by
    intro x
    rw [hp1, renderPath_lit_param]
  have hr2 : ∀ x : Int,
      renderPath (parseTemplate "/owners/{ownerId}") (fun _ => toString x) =
        "/owners/" ++ toString x := by
    intro x
    rw [hp2, renderPath_lit_param]
  refine ⟨rfl, fun notes => ⟨rfl, rfl⟩, rfl, rfl, ?_, rfl, rfl, rfl,
    fun c => ⟨rfl, rfl, rfl, rfl, rfl⟩, rfl, rfl, ?_, ?_, ?_, rfl, rfl, rfl, rfl, rfl, rfl,
    ?_, ?_, rfl, rfl, rfl, rfl⟩ <;>
    first
      | (rw [hr1 pid]; rfl)
      | (rw [hr2 oid]; rfl)

/-- Helper: a digit character decodes back to its digit. -/
theorem charToDigit_digitChar (d : Nat) (h : d < 10) : charToDigit (digitChar d) = d := by
  interval_cases d <;> decide

/-- Helper: appending one digit multiplies the decoded value by ten. -/
theorem digitsVal_append (l : List Char) (c : Char) :
    digitsVal (l ++ [c]) = 10 * digitsVal l + charToDigit c := by
  simp [digitsVal, List.foldl_append]

/-- Helper: the decimal rendering of `n` decodes back to `n` (round trip). -/
theorem digitsVal_natToStrCore :
    ∀ fuel n, n < fuel → digitsVal (natToStrCore n fuel) = n := by
  intro fuel
  induction fuel with
  | zero => intro n hn; omega
  | succ fuel ih =>
    intro n hn
    by_cases h : n < 10
    · simp only [natToStrCore, if_pos h, digitsVal, List.foldl_cons, List.foldl_nil]
      rw [charToDigit_digitChar n h]
      omega
    · have h1 : n / 10 < n := Nat.div_lt_self (by omega) (by omega)
      simp only [natToStrCore, if_neg h]
      rw [digitsVal_append, ih (n / 10) (by omega),
        charToDigit_digitChar (n % 10) (Nat.mod_lt n (by omega))]
      omega

/-- Helper: decimal rendering is injective. -/
theorem natToStr_inj {i j : Nat} (h : natToStr i = natToStr j) : i = j := by
  have hd : natToStrCore i (i + 1) = natToStrCore j (j + 1) := congrArg String.data h
  have hi := digitsVal_natToStrCore (i + 1) i (by omega)
  have hj := digitsVal_natToStrCore (j + 1) j (by omega)
  rw [hd] at hi
  omega

/-- Helper: lower-casing fixes digit characters. -/
theorem toLower_digitChar (d : Nat) (h : d < 10) :
    Char.toLower (digitChar d) = digitChar d := by
  interval_cases d <;> decide

/-- Helper: lower-casing fixes decimal renderings. -/
theorem map_toLower_natToStrCore :
    ∀ fuel n, (natToStrCore n fuel).map Char.toLower = natToStrCore n fuel := by
  intro fuel
  induction fuel with
  | zero => intro n; rfl
  | succ fuel ih =>
    intro n
    by_cases h : n < 10
    · simp [natToStrCore, h, toLower_digitChar n h]
    · simp [natToStrCore, h, List.map_append, ih,
        toLower_digitChar (n % 10) (Nat.mod_lt n (by omega))]

/-- Helper: the lower-cased candidate splits into the lower-cased base, an
underscore, and the untouched decimal suffix. -/
theorem lc_candidate (b : String) (i : Nat) :
    (lc (candidate b i)).data = (lc b).data ++ '_' :: natToStrCore i (i + 1) := by
  simp [lc, candidate, String.data_append, natToStr, List.map_append,
    map_toLower_natToStrCore]

/-- Helper: candidates with different suffixes stay different after
lower-casing. -/
theorem lc_candidate_inj (b : String) {i j : Nat}
    (h : lc (candidate b i) = lc (candidate b j)) : i = j := by
  have hd := congrArg String.data h
  rw [lc_candidate, lc_candidate] at hd
  have h2 : ('_' :: natToStrCore i (i + 1) : List Char) = '_' :: natToStrCore j (j + 1) :=
    List.append_cancel_left hd
  have h3 : natToStrCore i (i + 1) = natToStrCore j (j + 1) := by
    injection h2
  exact natToStr_inj (congrArg String.mk h3)

/-- Helper: the name chosen for a new tool is never already taken
(case-insensitively): the base name is free, or the numeric-suffix search
finds a free candidate — and by the pigeonhole argument the search over
`used.length + 1` distinct candidates cannot fail. -/
theorem freshName_fresh (used : List String) (base : String) :
    lc (freshName used base) ∉ used := by
  unfold freshName
  split
  case isTrue h =>
    cases hf : (List.range (used.length + 1)).find?
        (fun i => !(used.contains (lc (candidate base (i + 2))))) with
    | some i =>
        show lc (candidate base (i + 2)) ∉ used
        have hp := List.find?_some hf
        simp only [Bool.not_eq_true'] at hp
        simpa using hp
    | none =>
        exfalso
        have hall := List.find?_eq_none.mp hf
        simp only [List.mem_range, Bool.not_eq_true', Bool.not_eq_false] at hall
        have hmem : ∀ i < used.length + 1, lc (candidate base (i + 2)) ∈ used := by
          intro i hi
          have := hall i hi
          simpa using this
        have hinj : Function.Injective (fun i : Nat => lc (candidate base (i + 2))) := by
          intro i j hij
          have := lc_candidate_inj base hij
          omega
        have hnd : ((List.range (used.length + 1)).map
            (fun i => lc (candidate base (i + 2)))).Nodup :=
          (List.nodup_range _).map hinj
        have hcard1 : ((List.range (used.length + 1)).map
            (fun i => lc (candidate base (i + 2)))).toFinset.card = used.length + 1 := by
          rw [List.toFinset_card_of_nodup hnd]
          simp
        have hsub : ((List.range (used.length + 1)).map
            (fun i => lc (candidate base (i + 2)))).toFinset ⊆ used.toFinset := by
          intro x hx
          rw [List.mem_toFinset] at hx ⊢
          rw [List.mem_map] at hx
          obtain ⟨i, hi, rfl⟩ := hx
          exact hmem i (List.mem_range.mp hi)
        have hle := Finset.card_le_card hsub
        have hle2 : used.toFinset.card ≤ used.length := List.toFinset_card_le used
        omega
  case isFalse h => exact h

/-- Helper: the mining fold produces case-insensitively distinct names, all
of them outside the taken set it starts from. -/
theorem mineToolsGo_names : ∀ (es : List Endpoint) (used : List String),
    ((mineToolsGo used es).map (fun t => lc t.name)).Nodup ∧
    (∀ t ∈ mineToolsGo used es, lc t.name ∉ used) := by
  intro es
  induction es with
  | nil => intro used; exact ⟨List.nodup_nil, by simp [mineToolsGo]⟩
  | cons e rest ih =>
    intro used
    have ih2 := ih (lc (mineOne used e).name :: used)
    constructor
    · simp only [mineToolsGo, List.map_cons]
      rw [List.nodup_cons]
      refine ⟨?_, ih2.1⟩
      intro hmem
      rw [List.mem_map] at hmem
      obtain ⟨t, ht, heq⟩ := hmem
      have h2 := ih2.2 t ht
      simp only [List.mem_cons, not_or] at h2
      exact h2.1 heq
    · intro t ht
      simp only [mineToolsGo, List.mem_cons] at ht
      rcases ht with rfl | ht
      · exact freshName_fresh used (baseName e)
      · have h2 := ih2.2 t ht
        simp only [List.mem_cons, not_or] at h2
        exact h2.2

/-- C4: tool names are unique within a mined catalog when compared
case-insensitively — for every endpoint sequence, the catalog the miner
produces has pairwise case-insensitively distinct names — and the name sets
registered by the two generated adapters are case-insensitively distinct as
well. -/
theorem C4_name_uniqueness (es : List Endpoint) :
    ((mine_tools es).map (fun t => lc t.name)).Nodup ∧
    (mathRegistered.map lc).Nodup ∧
    (petstoreRegistered.map lc).Nodup := by
  exact ⟨(mineToolsGo_names es []).1, by decide, by decide⟩

/-- C3: mining the five-operation math document yields exactly the five
tools `add_numbers`, `subtract_numbers`, `multiply_numbers`,
`divide_numbers`, `health_check` in document order, the first four
classified write and `health_check` read, and the generated math adapter
registers exactly these five callables and no others. -/
theorem C3_math_document_mining :
    (mine_tools mathEndpoints).map ToolDefinition.name =
      ["add_numbers", "subtract_numbers", "multiply_numbers", "divide_numbers",
       "health_check"] ∧
    (mine_tools mathEndpoints).map ToolDefinition.safety =
      [.write, .write, .write, .write, .read] ∧
    (mine_tools mathEndpoints).length = 5 ∧
    mathRegistered.length = 5 ∧
    (∀ s, s ∈ mathRegistered ↔ s ∈ (mine_tools mathEndpoints).map ToolDefinition.name) := by
  have hnames : (mine_tools mathEndpoints).map ToolDefinition.name =
      ["add_numbers", "subtract_numbers", "multiply_numbers", "divide_numbers",
       "health_check"] := by decide
  refine ⟨hnames, by decide, by decide, rfl, ?_⟩
  intro s
  rw [hnames]
  simp only [mathRegistered, List.mem_cons, List.not_mem_nil, or_false]
  tauto

end MCPAdapter
